import Mathlib

/-!
# ASH protocol: a shallow embedding of the core and the Flask example

This file embeds, in Lean, the parts of the ASH (Anti-tamper Security Hash)
repository that its design claims speak about:

* `packages/ash-python/src/ash/core/proof.py` — the v1 proof builder
  (`build_proof`), Base64URL helpers, and the v2.1 HMAC construction
  (`derive_client_secret`, `build_proof_v21`, `verify_proof_v21`, `hash_body`);
* `examples/python-flask/app.py` — the example server's JSON canonicalizer
  (`canonicalize_json`), its own `build_proof`, `timing_safe_equal`, and the
  `ash_protected` verification pipeline (`decorated_function`);
* `examples/python-flask/client.py` — the example client's copies of
  `canonicalize_json` and `build_proof`.

Bytes are modelled as `Nat` (each value `< 256` where well-formedness
matters); 32-bit words as `Nat` reduced modulo `2 ^ 32`; Python strings as
Lean `String` (a sequence of Unicode scalar values, as in Python); fallible
code returns `Option`.
-/

namespace Ash

/-! ## UTF-8 encoding

Python's `str.encode("utf-8")`, modelled on the scalar values of the string. -/

/-- UTF-8 encoding of one Unicode scalar value (given as a `Nat`). -/
def utf8Char (c : Nat) : List Nat :=
  if c < 0x80 then [c]
  else if c < 0x800 then [0xC0 + c / 64, 0x80 + c % 64]
  else if c < 0x10000 then
    [0xE0 + c / 4096, 0x80 + (c / 64) % 64, 0x80 + c % 64]
  else
    [0xF0 + c / 262144, 0x80 + (c / 4096) % 64, 0x80 + (c / 64) % 64,
      0x80 + c % 64]

/-- `s.encode("utf-8")` — the UTF-8 byte sequence of a string. -/
def utf8Bytes (s : String) : List Nat :=
  s.data.flatMap (fun c => utf8Char c.toNat)

/-! ## SHA-256 (FIPS 180-4)

`hashlib.sha256`, over byte lists, with 32-bit words as `Nat` modulo
`2 ^ 32`. -/

/-- The eight initial SHA-256 hash values H0..H7. -/
def shaIV : List Nat :=
  [1779033703, 3144134277, 1013904242, 2773480762,
   1359893119, 2600822924, 528734635, 1541459225]

/-- The 64 SHA-256 round constants K0..K63. -/
def shaK : Array Nat :=
  #[1116352408, 1899447441, 3049323471, 3921009573, 961987163,
    1508970993, 2453635748, 2870763221, 3624381080, 310598401,
    607225278, 1426881987, 1925078388, 2162078206, 2614888103,
    3248222580, 3835390401, 4022224774, 264347078, 604807628,
    770255983, 1249150122, 1555081692, 1996064986, 2554220882,
    2821834349, 2952996808, 3210313671, 3336571891, 3584528711,
    113926993, 338241895, 666307205, 773529912, 1294757372,
    1396182291, 1695183700, 1986661051, 2177026350, 2456956037,
    2730485921, 2820302411, 3259730800, 3345764771, 3516065817,
    3600352804, 4094571909, 275423344, 430227734, 506948616,
    659060556, 883997877, 958139571, 1322822218, 1537002063,
    1747873779, 1955562222, 2024104815, 2227730452, 2361852424,
    2428436474, 2756734187, 3204031479, 3329325298]

/-- Truncation to a 32-bit word. -/
def w32 (x : Nat) : Nat := x % 2 ^ 32

/-- Right rotation of a 32-bit word. -/
def rotr32 (x n : Nat) : Nat := w32 (x / 2 ^ n + x % 2 ^ n * 2 ^ (32 - n))

/-- Bitwise complement of a 32-bit word. -/
def not32 (x : Nat) : Nat := 2 ^ 32 - 1 - x

/-- SHA-256 message padding: `0x80`, zeros, then the 64-bit big-endian bit
length, to a multiple of 64 bytes. -/
def shaPad (msg : List Nat) : List Nat :=
  let len := msg.length
  let zeros := (64 + 56 - (len + 1) % 64) % 64
  let bitLen := len * 8
  msg ++ [0x80] ++ List.replicate zeros 0 ++
    [bitLen / 2 ^ 56 % 256, bitLen / 2 ^ 48 % 256, bitLen / 2 ^ 40 % 256,
     bitLen / 2 ^ 32 % 256, bitLen / 2 ^ 24 % 256, bitLen / 2 ^ 16 % 256,
     bitLen / 2 ^ 8 % 256, bitLen % 256]

/-- Split a byte list into 64-byte blocks (the input length is a multiple of
64 after `shaPad`; a final short block would be kept as-is). -/
def shaBlocksGo : List Nat → List Nat → List (List Nat)
  | [], acc => if acc.isEmpty then [] else [acc.reverse]
  | b :: rest, acc =>
    if acc.length = 63 then (b :: acc).reverse :: shaBlocksGo rest []
    else shaBlocksGo rest (b :: acc)

def shaBlocks (l : List Nat) : List (List Nat) := shaBlocksGo l []

/-- The 16 big-endian 32-bit words of one 64-byte block. -/
def shaBlockWords (block : List Nat) : Array Nat :=
  (List.range 16).foldl
    (fun ws t =>
      ws.push
        (block.getD (4 * t) 0 * 2 ^ 24 + block.getD (4 * t + 1) 0 * 2 ^ 16 +
          block.getD (4 * t + 2) 0 * 2 ^ 8 + block.getD (4 * t + 3) 0))
    #[]

/-- `σ₀`. -/
def ssig0 (x : Nat) : Nat :=
  Nat.xor (Nat.xor (rotr32 x 7) (rotr32 x 18)) (x / 2 ^ 3)

/-- `σ₁`. -/
def ssig1 (x : Nat) : Nat :=
  Nat.xor (Nat.xor (rotr32 x 17) (rotr32 x 19)) (x / 2 ^ 10)

/-- `Σ₀`. -/
def bsig0 (x : Nat) : Nat :=
  Nat.xor (Nat.xor (rotr32 x 2) (rotr32 x 13)) (rotr32 x 22)

/-- `Σ₁`. -/
def bsig1 (x : Nat) : Nat :=
  Nat.xor (Nat.xor (rotr32 x 6) (rotr32 x 11)) (rotr32 x 25)

/-- `Ch(x,y,z)`. -/
def shaCh (x y z : Nat) : Nat :=
  Nat.xor (Nat.land x y) (Nat.land (not32 x) z)

/-- `Maj(x,y,z)`. -/
def shaMaj (x y z : Nat) : Nat :=
  Nat.xor (Nat.xor (Nat.land x y) (Nat.land x z)) (Nat.land y z)

/-- The full 64-word message schedule of one block. -/
def shaSchedule (block : List Nat) : Array Nat :=
  (List.range 48).foldl
    (fun ws t =>
      ws.push
        (w32 (ssig1 (ws.getD (t + 14) 0) + ws.getD (t + 9) 0 +
          ssig0 (ws.getD (t + 1) 0) + ws.getD t 0)))
    (shaBlockWords block)

/-- One round of the SHA-256 compression function. -/
def shaRound (kt wt : Nat) : List Nat → List Nat
  | [a, b, c, d, e, f, g, h] =>
    let t1 := w32 (h + bsig1 e + shaCh e f g + kt + wt)
    let t2 := w32 (bsig0 a + shaMaj a b c)
    [w32 (t1 + t2), a, b, c, w32 (d + t1), e, f, g]
  | st => st

/-- Compression of one 64-byte block into the running state. -/
def shaCompress (st : List Nat) (block : List Nat) : List Nat :=
  let ws := shaSchedule block
  let fin := (List.range 64).foldl
    (fun s t => shaRound (shaK.getD t 0) (ws.getD t 0) s) st
  List.zipWith (fun x y => w32 (x + y)) st fin

/-- Big-endian bytes of the eight state words. -/
def shaStateBytes (st : List Nat) : List Nat :=
  st.flatMap (fun x => [x / 2 ^ 24 % 256, x / 2 ^ 16 % 256, x / 2 ^ 8 % 256, x % 256])

/-- `hashlib.sha256(msg).digest()` — the SHA-256 digest of a byte list. -/
def sha256 (msg : List Nat) : List Nat :=
  shaStateBytes ((shaBlocks (shaPad msg)).foldl shaCompress shaIV)

/-! ## Hex and HMAC -/

/-- The sixteen lowercase hex digits. -/
def hexDigits : List Char := ("0123456789abcdef").data

/-- Lowercase hex encoding of a byte list (`bytes.hex()` / `.hexdigest()`). -/
def hexEncode (data : List Nat) : String :=
  String.mk (data.flatMap (fun b => [hexDigits.getD (b / 16) '0', hexDigits.getD (b % 16) '0']))

/-- `hmac.new(key, msg, hashlib.sha256).digest()` — HMAC-SHA256 (RFC 2104 /
FIPS 198-1) with a 64-byte block size. -/
def hmacSha256 (key msg : List Nat) : List Nat :=
  let k0 := if 64 < key.length then sha256 key else key
  let kp := k0 ++ List.replicate (64 - k0.length) 0
  sha256 ((kp.map (fun b => Nat.xor b 0x5c)) ++
    sha256 ((kp.map (fun b => Nat.xor b 0x36)) ++ msg))

/-! ## Base64URL (RFC 4648 §5), as used by `base64.urlsafe_b64encode` /
`urlsafe_b64decode` -/

/-- The 64-character URL-safe alphabet `A–Z a–z 0–9 - _`. -/
def b64Alphabet : List Char :=
  ("ABCDEFGHIJKLMNOPQRSTUVWXYZabcdefghijklmnopqrstuvwxyz0123456789-_").data

/-- The alphabet character of a 6-bit value. -/
def b64Char (v : Nat) : Char := b64Alphabet.getD v 'A'

/-- The 6-bit value of an alphabet character (0 for anything else). -/
def b64Val (c : Char) : Nat :=
  ((b64Alphabet.indexOf c : Nat))

/-- `base64.urlsafe_b64encode`: 3-byte groups to 4 characters, with `=`
padding on a short final group. -/
def b64EncodeRaw : List Nat → List Char
  | [] => []
  | [b1] => [b64Char (b1 / 4), b64Char (b1 % 4 * 16), '=', '=']
  | [b1, b2] =>
    [b64Char (b1 / 4), b64Char (b1 % 4 * 16 + b2 / 16), b64Char (b2 % 16 * 4), '=']
  | b1 :: b2 :: b3 :: rest =>
    b64Char (b1 / 4) :: b64Char (b1 % 4 * 16 + b2 / 16) ::
      b64Char (b2 % 16 * 4 + b3 / 64) :: b64Char (b3 % 64) :: b64EncodeRaw rest

/-- Remove all trailing `=` characters (`bytes.rstrip(b"=")`). -/
def rstripEq (cs : List Char) : List Char :=
  (cs.reverse.dropWhile (fun c => c == '=')).reverse

/-- `base64.urlsafe_b64decode` on well-padded input: 4-character groups to 3
bytes, a trailing `=` or `==` cutting the final group short. -/
def b64DecodeRaw : List Char → List Nat
  | c1 :: c2 :: c3 :: c4 :: rest =>
    if c3 = '=' then [b64Val c1 * 4 + b64Val c2 / 16]
    else if c4 = '=' then
      [b64Val c1 * 4 + b64Val c2 / 16, b64Val c2 % 16 * 16 + b64Val c3 / 4]
    else
      (b64Val c1 * 4 + b64Val c2 / 16) :: (b64Val c2 % 16 * 16 + b64Val c3 / 4) ::
        (b64Val c3 % 4 * 64 + b64Val c4) :: b64DecodeRaw rest
  | _ => []

/-- `proof.py` `base64url_encode`: encode then strip the `=` padding. -/
def base64urlEncode (data : List Nat) : String :=
  String.mk (rstripEq (b64EncodeRaw data))

/-- `proof.py` `base64url_decode`: re-add the padding the length calls for,
then decode. Handles both padded and unpadded input. -/
def base64urlDecode (input : String) : List Nat :=
  let padLength := (4 - input.length % 4) % 4
  b64DecodeRaw (input.data ++ List.replicate padLength '=')

/-! ## `ash/core/proof.py` — v1 proof -/

/-- The ASH protocol version prefix (`ASH_VERSION_PREFIX`). -/
def ASH_VERSION_PREFIX : String := "ASHv1"

/-- `BuildProofInput` from `ash/core/types.py` (the module itself is outside
the sources given; the fields are exactly the ones `build_proof` reads, and
`mode` is the string the f-string interpolates). -/
structure BuildProofInput where
  mode : String
  binding : String
  context_id : String
  nonce : Option String
  canonical_payload : String

/-- The spec's notion of a context that "carries a nonce": the nonce field
is present and nonempty (a stored v1 strict-mode nonce is a nonempty hex
string; balanced contexts store no nonce). -/
def carriesNonce : Option String → Bool
  | none => false
  | some n => !(n == "")

/-- `ash/core/proof.py` `build_proof`: SHA-256 over the newline-joined
components, Base64URL-encoded without padding. The nonce line is added when
`nonce is not None and nonce != ""`. -/
def build_proof (input_data : BuildProofInput) : String :=
  let proofInput :=
    ASH_VERSION_PREFIX ++ "\n" ++ input_data.mode ++ "\n" ++
      input_data.binding ++ "\n" ++ input_data.context_id ++ "\n"
  let proofInput :=
    match input_data.nonce with
    | some n => if n ≠ "" then proofInput ++ n ++ "\n" else proofInput
    | none => proofInput
  let proofInput := proofInput ++ input_data.canonical_payload
  base64urlEncode (sha256 (utf8Bytes proofInput))

/-! ## `ash/core/proof.py` — v2.1 -/

/-- `derive_client_secret`: hex HMAC-SHA256 keyed by the nonce bytes over
`contextId + "|" + binding`. -/
def derive_client_secret (nonce context_id binding : String) : String :=
  let message := context_id ++ "|" ++ binding
  hexEncode (hmacSha256 (utf8Bytes nonce) (utf8Bytes message))

/-- `build_proof_v21`: hex HMAC-SHA256 keyed by the client secret over
`timestamp + "|" + binding + "|" + bodyHash`. -/
def build_proof_v21 (client_secret timestamp binding body_hash : String) : String :=
  let message := timestamp ++ "|" ++ binding ++ "|" ++ body_hash
  hexEncode (hmacSha256 (utf8Bytes client_secret) (utf8Bytes message))

/-- `hmac.compare_digest` on two ASCII strings, modelled functionally: the
comparison's constant-time execution is a timing property with no bearing on
the returned value, which is plain equality. -/
def compare_digest (a b : String) : Bool := a == b

/-- `verify_proof_v21`: re-derive the secret, recompute the proof, compare. -/
def verify_proof_v21 (nonce context_id binding timestamp body_hash client_proof : String) :
    Bool :=
  let client_secret := derive_client_secret nonce context_id binding
  let expected_proof := build_proof_v21 client_secret timestamp binding body_hash
  compare_digest expected_proof client_proof

/-- `hash_body`: lowercase-hex SHA-256 of the canonical body. -/
def hash_body (canonical_body : String) : String :=
  hexEncode (sha256 (utf8Bytes canonical_body))

/-! ## Python JSON string escaping

`json.dumps(s)` with its default `ensure_ascii=True`: `"` and `\` and the
named control characters get short escapes, every other character outside
`0x20..0x7e` becomes `\uXXXX` (lowercase hex, surrogate pairs beyond the
BMP), and characters in `0x20..0x7e` pass through. -/

/-- Four lowercase hex digits of a value below `0x10000`. -/
def hex4 (n : Nat) : List Char :=
  [hexDigits.getD (n / 4096 % 16) '0', hexDigits.getD (n / 256 % 16) '0',
   hexDigits.getD (n / 16 % 16) '0', hexDigits.getD (n % 16) '0']

/-- `\uXXXX` escape of a scalar value, as a surrogate pair when beyond the
BMP. -/
def uEscape (n : Nat) : List Char :=
  if n < 0x10000 then '\\' :: 'u' :: hex4 n
  else
    ('\\' :: 'u' :: hex4 (0xd800 + (n - 0x10000) / 1024)) ++
      ('\\' :: 'u' :: hex4 (0xdc00 + (n - 0x10000) % 1024))

/-- Escape of one character under `json.dumps`'s default `ensure_ascii=True`. -/
def escapeAsciiChar (c : Char) : List Char :=
  if c = '"' then ['\\', '"']
  else if c = '\\' then ['\\', '\\']
  else if c = '\n' then ['\\', 'n']
  else if c = '\r' then ['\\', 'r']
  else if c = '\t' then ['\\', 't']
  else if c.toNat = 8 then ['\\', 'b']
  else if c.toNat = 12 then ['\\', 'f']
  else if c.toNat < 0x20 ∨ 0x7e < c.toNat then uEscape c.toNat
  else [c]

/-- `json.dumps(s)` (default options) — the ASCII-only JSON string literal. -/
def pyJsonDumps (s : String) : String :=
  String.mk ('"' :: (s.data.flatMap escapeAsciiChar ++ ['"']))

/-- Escape of one character per the spec's words on the canonical string
form: the standard escape rules, with non-ASCII characters preserved rather
than escaped (so only `"`, `\` and the controls below `0x20` are escaped). -/
def specEscapeChar (c : Char) : List Char :=
  if c = '"' then ['\\', '"']
  else if c = '\\' then ['\\', '\\']
  else if c = '\n' then ['\\', 'n']
  else if c = '\r' then ['\\', 'r']
  else if c = '\t' then ['\\', 't']
  else if c.toNat = 8 then ['\\', 'b']
  else if c.toNat = 12 then ['\\', 'f']
  else if c.toNat < 0x20 then uEscape c.toNat
  else [c]

/-- The JSON string literal the spec describes: standard escapes, UTF-8
(non-ASCII characters) preserved. -/
def specJsonStringLiteral (s : String) : String :=
  String.mk ('"' :: (s.data.flatMap specEscapeChar ++ ['"']))

/-! ## The example canonicalizer

`canonicalize_json` is textually identical in `examples/python-flask/app.py`
and `examples/python-flask/client.py`; this is its embedding (once, for
both).

Payload values are the tagged variant the function dispatches on. Finite
non-integer floats are outside this model (their canonicalization goes
through Python's float `str`, an IEEE-754 shortest-round-trip algorithm that
a shallow embedding does not capture); integer-valued numbers are `pyint`,
and `pynonfinite` stands for the float values (NaN, ±∞) on which the
function's `int(obj)` conversion raises. -/

inductive PyVal where
  | pynone
  | pybool (b : Bool)
  | pyint (n : Int)
  | pystr (s : String)
  | pylist (xs : List PyVal)
  | pydict (kvs : List (String × PyVal))
  | pynonfinite

/-- Code-point lexicographic `≤` on character lists — the comparison Python
uses between `str` values. -/
def charsLe : List Char → List Char → Bool
  | [], _ => true
  | _ :: _, [] => false
  | a :: as, b :: bs =>
    if a.toNat < b.toNat then true
    else if b.toNat < a.toNat then false
    else charsLe as bs

/-- Python's `str` `≤`: code-point lexicographic. -/
def pyStrLe (a b : String) : Bool := charsLe a.data b.data

/-- Key-sorted order on already-canonicalized dict pairs. -/
def pairKeyLe (p q : String × String) : Prop := pyStrLe p.1 q.1 = true

instance : DecidableRel pairKeyLe := fun p q =>
  inferInstanceAs (Decidable (pyStrLe p.1 q.1 = true))

/-- The sort `sorted(obj.keys())` induces on the pairs: a stable insertion
sort by key. (Python sorts the keys and then canonicalizes each value in
key order; canonicalization is pure, so sorting the pairs after
canonicalizing the values in dict order produces the same pair list.) -/
def sortPairs (ps : List (String × String)) : List (String × String) :=
  List.insertionSort pairKeyLe ps

mutual

/-- `canonicalize_json` from `app.py` / `client.py`. `none` models the
raised `ValueError` (unsupported type, or `int(obj)` on a non-finite
float). -/
def canonicalize_json : PyVal → Option String
  | .pynone => some "null"
  | .pybool b => some (if b then "true" else "false")
  | .pyint n => some (if n = 0 then "0" else toString n)
  | .pystr s => some (pyJsonDumps s)
  | .pylist xs =>
    match canonicalizeItems xs with
    | some items => some ("[" ++ String.intercalate "," items ++ "]")
    | none => none
  | .pydict kvs =>
    match canonicalizePairs kvs with
    | some pairs =>
      some ("\x7b" ++
        String.intercalate ","
          ((sortPairs pairs).map (fun p => pyJsonDumps p.1 ++ ":" ++ p.2)) ++ "\x7d")
    | none => none
  | .pynonfinite => none
termination_by structural v => v

/-- The list comprehension over array items. -/
def canonicalizeItems : List PyVal → Option (List String)
  | [] => some []
  | v :: rest =>
    match canonicalize_json v, canonicalizeItems rest with
    | some s, some ss => some (s :: ss)
    | _, _ => none
termination_by structural l => l

/-- Canonicalization of each dict value, keys kept alongside. -/
def canonicalizePairs : List (String × PyVal) → Option (List (String × String))
  | [] => some []
  | (k, v) :: rest =>
    match canonicalize_json v, canonicalizePairs rest with
    | some s, some ps => some ((k, s) :: ps)
    | _, _ => none
termination_by structural l => l

end

/-! ## The example server and client proof builders -/

/-- `ASH_VERSION` in `app.py` and `client.py`. -/
def ASH_VERSION : String := "ASHv1"

/-- Python truthiness of an optional string (`if nonce:`). -/
def pyTruthy : Option String → Bool
  | none => false
  | some s => !(s == "")

/-- `build_proof` from `examples/python-flask/app.py`: the nonce line is
added under `if nonce:` — when the nonce is neither `None` nor empty. -/
def appBuildProof (mode binding context_id : String) (nonce : Option String)
    (canonical_payload : String) : String :=
  let inputStr :=
    ASH_VERSION ++ "\n" ++ mode ++ "\n" ++ binding ++ "\n" ++ context_id ++ "\n"
  let inputStr := if pyTruthy nonce then inputStr ++ nonce.getD "" ++ "\n" else inputStr
  let inputStr := inputStr ++ canonical_payload
  base64urlEncode (sha256 (utf8Bytes inputStr))

/-- `build_proof` from `examples/python-flask/client.py` (same text as the
server's copy). -/
def clientBuildProof (mode binding context_id : String) (nonce : Option String)
    (canonical_payload : String) : String :=
  let inputStr :=
    ASH_VERSION ++ "\n" ++ mode ++ "\n" ++ binding ++ "\n" ++ context_id ++ "\n"
  let inputStr := if pyTruthy nonce then inputStr ++ nonce.getD "" ++ "\n" else inputStr
  let inputStr := inputStr ++ canonical_payload
  base64urlEncode (sha256 (utf8Bytes inputStr))

/-- `timing_safe_equal` from `app.py`: length check, then
`hmac.compare_digest` on the UTF-8 encodings (modelled functionally as byte
equality; constant-time execution is a timing property). -/
def timing_safe_equal (a b : String) : Bool :=
  if a.length ≠ b.length then false
  else utf8Bytes a == utf8Bytes b

/-! ## The `ash_protected` verification pipeline (`app.py`) -/

/-- One stored context dict: the record `issue_context` puts into
`context_store`. `expires_at` is in milliseconds since the epoch. -/
structure StoredContext where
  id : String
  binding : String
  mode : String
  expires_at : Nat
  used : Bool
  nonce : Option String

/-- The in-memory `context_store`, as an association list. -/
def Store := List (String × StoredContext)

/-- `context_store.get(context_id)`. -/
def storeGet (store : Store) (context_id : String) : Option StoredContext :=
  (List.find? (fun p => p.1 == context_id) store).map Prod.snd

/-- `del context_store[context_id]`. -/
def storeDel (store : Store) (context_id : String) : Store :=
  List.filter (fun p => !(p.1 == context_id)) store

/-- `context["used"] = True` on the stored record. -/
def storeMarkUsed (store : Store) (context_id : String) : Store :=
  List.map
    (fun p => if p.1 == context_id then (p.1, { p.2 with used := true }) else p)
    store

/-- Python truthiness of a payload value (`payload or {}`). -/
def pyFalsy : PyVal → Bool
  | .pynone => true
  | .pybool b => !b
  | .pyint n => n == 0
  | .pystr s => s == ""
  | .pylist xs => xs.isEmpty
  | .pydict kvs => kvs.isEmpty
  | .pynonfinite => false

/-- Step 6 of `decorated_function`, the `try` block: `get_json` is the body
parse result (`none` a raised parse error), a falsy payload is replaced by
`{}` (`payload or {}`), and the result is canonicalized; `none` means the
step raised and `ASH_CANONICALIZATION_FAILED` is returned. -/
def canonicalizeBody (get_json : Option PyVal) : Option String :=
  match get_json with
  | none => none
  | some v => canonicalize_json (if pyFalsy v then .pydict [] else v)

/-- The two responses the decorator can produce: an error JSON with an HTTP
status, or the wrapped handler's response. -/
inductive AshResponse where
  | errorResponse (code : String) (status : Nat)
  | handlerResponse
deriving DecidableEq

/-- `decorated_function` from `ash_protected` in `app.py`, at its decision
level: headers, store lookup, expiry (`time.time() * 1000 > expires_at`,
modelled at millisecond granularity), used flag, binding, canonicalization
(`get_json` is the parse result, `none` a raised parse error; `or {}`
replaces a falsy payload), expected proof, constant-time compare, and the
mark-used write. Returns the response and the store it leaves behind. -/
def ash_protected (expected_binding : String) (store : Store) (now_ms : Nat)
    (context_id_hdr client_proof_hdr : Option String) (get_json : Option PyVal) :
    AshResponse × Store :=
  if !(pyTruthy context_id_hdr) || !(pyTruthy client_proof_hdr) then
    (.errorResponse "ASH_MISSING_HEADERS" 401, store)
  else
    let context_id := context_id_hdr.getD ""
    let client_proof := client_proof_hdr.getD ""
    match storeGet store context_id with
    | none => (.errorResponse "ASH_INVALID_CONTEXT" 401, store)
    | some context =>
      if context.expires_at < now_ms then
        (.errorResponse "ASH_CONTEXT_EXPIRED" 401, storeDel store context_id)
      else if context.used then
        (.errorResponse "ASH_REPLAY_DETECTED" 401, store)
      else if context.binding ≠ expected_binding then
        (.errorResponse "ASH_ENDPOINT_MISMATCH" 401, store)
      else
        match canonicalizeBody get_json with
        | none => (.errorResponse "ASH_CANONICALIZATION_FAILED" 400, store)
        | some canonical_payload =>
          let expected_proof :=
            appBuildProof context.mode context.binding context_id context.nonce
              canonical_payload
          if !(timing_safe_equal expected_proof client_proof) then
            (.errorResponse "ASH_INTEGRITY_FAILED" 401, store)
          else
            (.handlerResponse, storeMarkUsed store context_id)

/-! ## Lemmas -/
theorem utf8Bytes_append (a b : String) :
    utf8Bytes (a ++ b) = utf8Bytes a ++ utf8Bytes b := by
  simp [utf8Bytes, String.data_append]



theorem b64Char_mem (v : Nat) : b64Char v ∈ b64Alphabet := by
  by_cases h : v < 64
  · revert h
    have : ∀ w, w < 64 → b64Char w ∈ b64Alphabet := by decide
    exact this v
  · have hlen : b64Alphabet.length ≤ v := by
      have : b64Alphabet.length = 64 := by decide
      omega
    unfold b64Char
    rw [List.getD_eq_default _ _ hlen]
    decide

theorem b64Char_ne_pad (v : Nat) : b64Char v ≠ '=' := by
  intro h
  have hm := b64Char_mem v
  rw [h] at hm
  exact absurd hm (by decide)

theorem b64Val_b64Char {v : Nat} (h : v < 64) : b64Val (b64Char v) = v := by
  revert h
  have : ∀ w, w < 64 → b64Val (b64Char w) = w := by decide
  exact this v

theorem rstripEq_append_pad (xs : List Char) : rstripEq (xs ++ ['=']) = rstripEq xs := by
  simp [rstripEq, List.dropWhile]

theorem rstripEq_append_last {c : Char} (h : c ≠ '=') (xs : List Char) :
    rstripEq (xs ++ [c]) = xs ++ [c] := by
  simp [rstripEq, List.dropWhile, h]

theorem rstripEq_ne_nil_of_mem {c : Char} {ys : List Char} (hm : c ∈ ys) (h : c ≠ '=') :
    rstripEq ys ≠ [] := by
  intro hnil
  unfold rstripEq at hnil
  have h2 : ys.reverse.dropWhile (fun x => x == '=') = [] := by
    have := congrArg List.reverse hnil
    simpa using this
  have h3 := List.dropWhile_eq_nil_iff.mp h2
  exact h (by simpa using h3 c (by simpa using hm))

theorem rstripEq_append_left (xs ys : List Char) (h : rstripEq ys ≠ []) :
    rstripEq (xs ++ ys) = xs ++ rstripEq ys := by
  have hne : (ys.reverse.dropWhile (fun x => x == '=')).isEmpty = false := by
    rcases hemp : (ys.reverse.dropWhile (fun x => x == '=')).isEmpty with _ | _
    · rfl
    · exfalso
      apply h
      unfold rstripEq
      rw [List.isEmpty_iff.mp hemp]
      rfl
  unfold rstripEq
  rw [List.reverse_append, List.dropWhile_append, hne]
  simp

theorem b64EncodeRaw_length (l : List Nat) :
    (b64EncodeRaw l).length = (l.length + 2) / 3 * 4 := by
  induction l using b64EncodeRaw.induct with
  | case1 => simp [b64EncodeRaw]
  | case2 b1 => simp [b64EncodeRaw]
  | case3 b1 b2 => simp [b64EncodeRaw]
  | case4 b1 b2 b3 rest ih =>
    simp only [b64EncodeRaw, List.length_cons, ih]
    omega

theorem encodeRaw_cons_head (x : Nat) (xs : List Nat) :
    ∃ t, b64EncodeRaw (x :: xs) = b64Char (x / 4) :: t := by
  match xs with
  | [] => exact ⟨_, rfl⟩
  | [y] => exact ⟨_, rfl⟩
  | y :: z :: r => exact ⟨_, rfl⟩

theorem b64DecodeRaw_group (c1 c2 c3 c4 : Char) (rest : List Char) (h3 : c3 ≠ '=')
    (h4 : c4 ≠ '=') :
    b64DecodeRaw (c1 :: c2 :: c3 :: c4 :: rest) =
      (b64Val c1 * 4 + b64Val c2 / 16) :: (b64Val c2 % 16 * 16 + b64Val c3 / 4) ::
        (b64Val c3 % 4 * 64 + b64Val c4) :: b64DecodeRaw rest := by
  simp only [b64DecodeRaw]
  rw [if_neg h3, if_neg h4]

theorem b64DecodeRaw_one_pad (c1 c2 c3 : Char) (h3 : c3 ≠ '=') :
    b64DecodeRaw [c1, c2, c3, '='] =
      [b64Val c1 * 4 + b64Val c2 / 16, b64Val c2 % 16 * 16 + b64Val c3 / 4] := by
  simp only [b64DecodeRaw]
  simp [if_neg h3]

theorem b64DecodeRaw_two_pad (c1 c2 : Char) :
    b64DecodeRaw [c1, c2, '=', '='] = [b64Val c1 * 4 + b64Val c2 / 16] := by
  simp only [b64DecodeRaw]
  simp

theorem decodeRaw_encodeRaw (l : List Nat) (wf : ∀ b ∈ l, b < 256) :
    b64DecodeRaw (b64EncodeRaw l) = l := by
  induction l using b64EncodeRaw.induct with
  | case1 => rfl
  | case2 b1 =>
    have h1 : b1 < 256 := wf b1 (by simp)
    show b64DecodeRaw [b64Char (b1 / 4), b64Char (b1 % 4 * 16), '=', '='] = [b1]
    rw [b64DecodeRaw_two_pad, b64Val_b64Char (by omega), b64Val_b64Char (by omega)]
    have harith : b1 / 4 * 4 + b1 % 4 * 16 / 16 = b1 := by omega
    rw [harith]
  | case3 b1 b2 =>
    have h1 : b1 < 256 := wf b1 (by simp)
    have h2 : b2 < 256 := wf b2 (by simp)
    show b64DecodeRaw [b64Char (b1 / 4), b64Char (b1 % 4 * 16 + b2 / 16),
      b64Char (b2 % 16 * 4), '='] = [b1, b2]
    rw [b64DecodeRaw_one_pad _ _ _ (b64Char_ne_pad _), b64Val_b64Char (by omega),
      b64Val_b64Char (by omega), b64Val_b64Char (by omega)]
    have ha : b1 / 4 * 4 + (b1 % 4 * 16 + b2 / 16) / 16 = b1 := by omega
    have hb : (b1 % 4 * 16 + b2 / 16) % 16 * 16 + b2 % 16 * 4 / 4 = b2 := by omega
    rw [ha, hb]
  | case4 b1 b2 b3 rest ih =>
    have h1 : b1 < 256 := wf b1 (by simp)
    have h2 : b2 < 256 := wf b2 (by simp)
    have h3 : b3 < 256 := wf b3 (by simp)
    have ihr := ih (fun b hb => wf b (by simp [hb]))
    show b64DecodeRaw (b64Char (b1 / 4) :: b64Char (b1 % 4 * 16 + b2 / 16) ::
      b64Char (b2 % 16 * 4 + b3 / 64) :: b64Char (b3 % 64) :: b64EncodeRaw rest) =
      b1 :: b2 :: b3 :: rest
    rw [b64DecodeRaw_group _ _ _ _ _ (b64Char_ne_pad _) (b64Char_ne_pad _),
      b64Val_b64Char (by omega), b64Val_b64Char (by omega), b64Val_b64Char (by omega),
      b64Val_b64Char (by omega), ihr]
    have ha : b1 / 4 * 4 + (b1 % 4 * 16 + b2 / 16) / 16 = b1 := by omega
    have hb : (b1 % 4 * 16 + b2 / 16) % 16 * 16 + (b2 % 16 * 4 + b3 / 64) / 4 = b2 := by omega
    have hc : (b2 % 16 * 4 + b3 / 64) % 4 * 64 + b3 % 64 = b3 := by omega
    rw [ha, hb, hc]

theorem encodeRaw_stripped (l : List Nat) :
    b64EncodeRaw l =
      rstripEq (b64EncodeRaw l) ++ List.replicate ((3 - l.length % 3) % 3) '=' ∧
    ∀ c ∈ rstripEq (b64EncodeRaw l), c ∈ b64Alphabet := by
  induction l using b64EncodeRaw.induct with
  | case1 => simp [b64EncodeRaw, rstripEq]
  | case2 b1 =>
    have hstrip : rstripEq (b64EncodeRaw [b1]) = [b64Char (b1 / 4), b64Char (b1 % 4 * 16)] := by
      show rstripEq ([b64Char (b1 / 4), b64Char (b1 % 4 * 16), '='] ++ ['=']) = _
      rw [rstripEq_append_pad]
      show rstripEq ([b64Char (b1 / 4), b64Char (b1 % 4 * 16)] ++ ['=']) = _
      rw [rstripEq_append_pad]
      show rstripEq ([b64Char (b1 / 4)] ++ [b64Char (b1 % 4 * 16)]) = _
      rw [rstripEq_append_last (b64Char_ne_pad _)]
      rfl
    rw [hstrip]
    refine ⟨rfl, ?_⟩
    intro c hc
    simp only [List.mem_cons, List.not_mem_nil, or_false] at hc
    rcases hc with rfl | rfl
    · exact b64Char_mem _
    · exact b64Char_mem _
  | case3 b1 b2 =>
    have hstrip : rstripEq (b64EncodeRaw [b1, b2]) =
        [b64Char (b1 / 4), b64Char (b1 % 4 * 16 + b2 / 16), b64Char (b2 % 16 * 4)] := by
      show rstripEq ([b64Char (b1 / 4), b64Char (b1 % 4 * 16 + b2 / 16),
        b64Char (b2 % 16 * 4)] ++ ['=']) = _
      rw [rstripEq_append_pad]
      show rstripEq ([b64Char (b1 / 4), b64Char (b1 % 4 * 16 + b2 / 16)] ++
        [b64Char (b2 % 16 * 4)]) = _
      rw [rstripEq_append_last (b64Char_ne_pad _)]
      rfl
    rw [hstrip]
    refine ⟨rfl, ?_⟩
    intro c hc
    simp only [List.mem_cons, List.not_mem_nil, or_false] at hc
    rcases hc with rfl | rfl | rfl
    · exact b64Char_mem _
    · exact b64Char_mem _
    · exact b64Char_mem _
  | case4 b1 b2 b3 rest ih =>
    rcases ih with ⟨ihdec, ihmem⟩
    match rest with
    | [] =>
      have hstrip : rstripEq (b64EncodeRaw [b1, b2, b3]) = b64EncodeRaw [b1, b2, b3] := by
        show rstripEq ([b64Char (b1 / 4), b64Char (b1 % 4 * 16 + b2 / 16),
          b64Char (b2 % 16 * 4 + b3 / 64)] ++ [b64Char (b3 % 64)]) = _
        rw [rstripEq_append_last (b64Char_ne_pad _)]
        rfl
      rw [hstrip]
      refine ⟨by simp, ?_⟩
      intro c hc
      simp only [b64EncodeRaw, List.mem_cons, List.not_mem_nil, or_false] at hc
      rcases hc with rfl | rfl | rfl | rfl
      · exact b64Char_mem _
      · exact b64Char_mem _
      · exact b64Char_mem _
      · exact b64Char_mem _
    | x :: xs =>
      obtain ⟨t, ht⟩ := encodeRaw_cons_head x xs
      have hne : rstripEq (b64EncodeRaw (x :: xs)) ≠ [] :=
        rstripEq_ne_nil_of_mem (by rw [ht]; exact List.mem_cons_self _ _) (b64Char_ne_pad _)
      have hsplit : rstripEq (b64EncodeRaw (b1 :: b2 :: b3 :: x :: xs)) =
          [b64Char (b1 / 4), b64Char (b1 % 4 * 16 + b2 / 16),
            b64Char (b2 % 16 * 4 + b3 / 64), b64Char (b3 % 64)] ++
            rstripEq (b64EncodeRaw (x :: xs)) := by
        show rstripEq ([b64Char (b1 / 4), b64Char (b1 % 4 * 16 + b2 / 16),
          b64Char (b2 % 16 * 4 + b3 / 64), b64Char (b3 % 64)] ++ b64EncodeRaw (x :: xs)) = _
        rw [rstripEq_append_left _ _ hne]
      have hmod : (3 - (b1 :: b2 :: b3 :: x :: xs).length % 3) % 3 =
          (3 - (x :: xs).length % 3) % 3 := by
        simp only [List.length_cons]
        omega
      constructor
      · rw [hsplit, hmod, List.append_assoc]
        exact congrArg
          (fun z => b64Char (b1 / 4) :: b64Char (b1 % 4 * 16 + b2 / 16) ::
            b64Char (b2 % 16 * 4 + b3 / 64) :: b64Char (b3 % 64) :: z) ihdec
      · rw [hsplit]
        intro c hc
        rcases List.mem_append.mp hc with hc | hc
        · simp only [List.mem_cons, List.not_mem_nil, or_false] at hc
          rcases hc with rfl | rfl | rfl | rfl
          · exact b64Char_mem _
          · exact b64Char_mem _
          · exact b64Char_mem _
          · exact b64Char_mem _
        · exact ihmem c hc


theorem base64urlEncode_data (l : List Nat) :
    (base64urlEncode l).data = rstripEq (b64EncodeRaw l) := rfl

theorem base64urlEncode_mem_alphabet (l : List Nat) :
    ∀ c ∈ (base64urlEncode l).data, c ∈ b64Alphabet := by
  rw [base64urlEncode_data]
  exact (encodeRaw_stripped l).2

theorem base64urlEncode_no_pad (l : List Nat) : '=' ∉ (base64urlEncode l).data := by
  intro h
  exact absurd (base64urlEncode_mem_alphabet l '=' h) (by decide)

theorem base64url_decode_encode (l : List Nat) (wf : ∀ b ∈ l, b < 256) :
    base64urlDecode (base64urlEncode l) = l := by
  obtain ⟨hdec, _⟩ := encodeRaw_stripped l
  have hlen4 : (b64EncodeRaw l).length = (l.length + 2) / 3 * 4 := b64EncodeRaw_length l
  have hstriplen : (rstripEq (b64EncodeRaw l)).length + (3 - l.length % 3) % 3 =
      (b64EncodeRaw l).length := by
    have hc := congrArg List.length hdec
    simp only [List.length_append, List.length_replicate] at hc
    omega
  have hslen : (base64urlEncode l).length = (rstripEq (b64EncodeRaw l)).length := by
    show (String.mk (rstripEq (b64EncodeRaw l))).length = _
    simp [String.length]
  have hpad : (4 - (base64urlEncode l).length % 4) % 4 = (3 - l.length % 3) % 3 := by
    omega
  unfold base64urlDecode
  rw [hpad, base64urlEncode_data]
  show b64DecodeRaw (rstripEq (b64EncodeRaw l) ++
    List.replicate ((3 - l.length % 3) % 3) '=') = l
  rw [show rstripEq (b64EncodeRaw l) ++ List.replicate ((3 - l.length % 3) % 3) '=' =
    b64EncodeRaw l from hdec.symm]
  exact decodeRaw_encodeRaw l wf

theorem base64url_decode_padded (l : List Nat) (wf : ∀ b ∈ l, b < 256) :
    base64urlDecode (String.mk (b64EncodeRaw l)) = l := by
  have hlen4 : (b64EncodeRaw l).length = (l.length + 2) / 3 * 4 := b64EncodeRaw_length l
  have hlen : (String.mk (b64EncodeRaw l)).length = (l.length + 2) / 3 * 4 := by
    simp [String.length, hlen4]
  unfold base64urlDecode
  rw [hlen]
  have hz : (4 - (l.length + 2) / 3 * 4 % 4) % 4 = 0 := by omega
  rw [hz]
  show b64DecodeRaw ((String.mk (b64EncodeRaw l)).data ++ List.replicate 0 '=') = l
  show b64DecodeRaw (b64EncodeRaw l ++ []) = l
  rw [List.append_nil]
  exact decodeRaw_encodeRaw l wf


theorem base64urlEncode_all_alphabet (l : List Nat) :
    ((base64urlEncode l).data.all (fun c => b64Alphabet.contains c)) = true := by
  rw [List.all_eq_true]
  intro c hc
  exact List.elem_iff.mpr (base64urlEncode_mem_alphabet l c hc)

theorem base64urlEncode_contains_pad (l : List Nat) :
    ((base64urlEncode l).data.contains '=') = false := by
  rcases h : (base64urlEncode l).data.contains '=' with _ | _
  · rfl
  · exact absurd (List.elem_iff.mp h) (base64urlEncode_no_pad l)

/-! ## Claim theorems -/

set_option maxRecDepth 100000 in
/-- C2. For every mode, binding, context id, optional nonce and canonical
payload, `build_proof` returns the Base64URL encoding — RFC 4648 §5 alphabet
(every output character is in `b64Alphabet`), without `=` padding — of the
SHA-256 digest of the UTF-8 bytes of `"ASHv1\n" + mode + "\n" + binding +
"\n" + contextId + "\n"`, then the nonce segment `nonce + "\n"` (trailing
newline included) exactly when the context carries a nonce, then the
canonical payload. -/
theorem C2_v1_proof_structure (input : BuildProofInput) :
    build_proof input =
      base64urlEncode (sha256
        (utf8Bytes ("ASHv1" ++ "\n" ++ input.mode ++ "\n" ++ input.binding ++ "\n" ++
            input.context_id ++ "\n") ++
          (if carriesNonce input.nonce then utf8Bytes (input.nonce.getD "" ++ "\n") else []) ++
          utf8Bytes input.canonical_payload)) ∧
    ((build_proof input).data.all (fun c => b64Alphabet.contains c)) = true ∧
    ((build_proof input).data.contains '=') = false := by
  refine ⟨?_, ?_, ?_⟩
  · rcases input with ⟨m, b, cid, nonce, p⟩
    rcases nonce with _ | n
    · unfold build_proof carriesNonce ASH_VERSION_PREFIX
      dsimp only
      simp only [utf8Bytes_append, List.append_assoc, List.append_nil, List.nil_append,
        Bool.false_eq_true, if_false, ite_false]
    · by_cases hn : n = ""
      · subst hn
        unfold build_proof carriesNonce ASH_VERSION_PREFIX
        dsimp only
        rw [if_neg (fun h => h rfl)]
        simp only [utf8Bytes_append, List.append_assoc, List.append_nil, List.nil_append]
        rfl
      · unfold build_proof carriesNonce ASH_VERSION_PREFIX
        dsimp only
        rw [if_pos hn]
        have hcar : (n == "") = false := by
          rcases hb : n == "" with _ | _
          · rfl
          · exact absurd (by simpa using hb) hn
        simp only [hcar, Bool.not_false, if_true, ite_true, Option.getD,
          utf8Bytes_append, List.append_assoc]
  · exact base64urlEncode_all_alphabet _
  · exact base64urlEncode_contains_pad _

/-- C8. For every mode, binding, context id, optional nonce (including
`none` and the empty string) and canonical payload, the three v1 proof
implementations — `build_proof` in the package core, `build_proof` in the
Flask example server, and `build_proof` in the example client — return
identical strings; and an empty nonce produces the same proof as no nonce
(all three omit the nonce segment for `None` and for `""`). -/
theorem C8_three_implementations_agree (mode binding context_id : String)
    (nonce : Option String) (canonical_payload : String) :
    build_proof ⟨mode, binding, context_id, nonce, canonical_payload⟩ =
      appBuildProof mode binding context_id nonce canonical_payload ∧
    appBuildProof mode binding context_id nonce canonical_payload =
      clientBuildProof mode binding context_id nonce canonical_payload ∧
    build_proof ⟨mode, binding, context_id, some "", canonical_payload⟩ =
      build_proof ⟨mode, binding, context_id, none, canonical_payload⟩ := by
  refine ⟨?_, rfl, rfl⟩
  rcases nonce with _ | n
  · rfl
  · by_cases hn : n = ""
    · subst hn
      rfl
    · have hcar : (n == "") = false := by
        rcases hb : n == "" with _ | _
        · rfl
        · exact absurd (by simpa using hb) hn
      unfold build_proof appBuildProof pyTruthy ASH_VERSION ASH_VERSION_PREFIX
      dsimp only
      rw [if_pos hn, hcar]
      rfl

/-- C4. For every nonce, context id, binding, timestamp, client secret, body
hash and canonical payload: `derive_client_secret` is the hex HMAC-SHA256
keyed by the nonce bytes over `contextId + "|" + binding`;
`build_proof_v21` is the hex HMAC-SHA256 keyed by the client secret over
`timestamp + "|" + binding + "|" + bodyHash`; and `hash_body` produces
`bodyHash = hex(SHA256(canonicalPayload))`. -/
theorem C4_v21_formulas (nonce context_id binding client_secret timestamp
    body_hash canonical_payload : String) :
    derive_client_secret nonce context_id binding =
      hexEncode (hmacSha256 (utf8Bytes nonce)
        (utf8Bytes context_id ++ utf8Bytes "|" ++ utf8Bytes binding)) ∧
    build_proof_v21 client_secret timestamp binding body_hash =
      hexEncode (hmacSha256 (utf8Bytes client_secret)
        (utf8Bytes timestamp ++ utf8Bytes "|" ++ utf8Bytes binding ++ utf8Bytes "|" ++
          utf8Bytes body_hash)) ∧
    hash_body canonical_payload = hexEncode (sha256 (utf8Bytes canonical_payload)) := by
  refine ⟨?_, ?_, rfl⟩
  · unfold derive_client_secret
    dsimp only
    simp only [utf8Bytes_append, List.append_assoc]
  · unfold build_proof_v21
    dsimp only
    simp only [utf8Bytes_append, List.append_assoc]

/-- C9. For every nonce, context id, binding, timestamp, body hash and
candidate proof, `verify_proof_v21` returns `true` exactly when the
candidate equals `build_proof_v21` of the derived client secret; in
particular the honestly built proof always verifies. -/
theorem C9_verify_v21_iff (nonce context_id binding timestamp body_hash
    client_proof : String) :
    (verify_proof_v21 nonce context_id binding timestamp body_hash client_proof = true ↔
      client_proof =
        build_proof_v21 (derive_client_secret nonce context_id binding) timestamp binding
          body_hash) ∧
    verify_proof_v21 nonce context_id binding timestamp body_hash
      (build_proof_v21 (derive_client_secret nonce context_id binding) timestamp binding
        body_hash) = true := by
  constructor
  · unfold verify_proof_v21 compare_digest
    dsimp only
    rw [beq_iff_eq]
    exact eq_comm
  · unfold verify_proof_v21 compare_digest
    dsimp only
    simp only [beq_self_eq_true]

/-- C10. For every byte list, decoding the encoding returns the original
bytes, the encoder's output never contains the padding character `=`, and
the decoder also accepts the padded form of the same encoding (the raw
`urlsafe_b64encode` output before stripping) with the same result. -/
theorem C10_base64url_roundtrip (l : List Nat) (wf : ∀ b ∈ l, b < 256) :
    base64urlDecode (base64urlEncode l) = l ∧
    '=' ∉ (base64urlEncode l).data ∧
    base64urlDecode (String.mk (b64EncodeRaw l)) = l :=
  ⟨base64url_decode_encode l wf, base64urlEncode_no_pad l, base64url_decode_padded l wf⟩

/-- Witness for C10 at the bytes of `"hello"`. -/
theorem C10_base64url_roundtrip_witness :
    (∀ b ∈ [104, 101, 108, 108, 111], b < 256) ∧
    (base64urlDecode (base64urlEncode [104, 101, 108, 108, 111]) =
        [104, 101, 108, 108, 111] ∧
      '=' ∉ (base64urlEncode [104, 101, 108, 108, 111]).data ∧
      base64urlDecode (String.mk (b64EncodeRaw [104, 101, 108, 108, 111])) =
        [104, 101, 108, 108, 111]) :=
  ⟨by decide, C10_base64url_roundtrip [104, 101, 108, 108, 111] (by decide)⟩


theorem beq_false_of_ne {a b : String} (h : a ≠ b) : (a == b) = false := by
  rcases hb : a == b with _ | _
  · rfl
  · exact absurd (by simpa using hb) h

theorem pyTruthy_some {s : String} (h : s ≠ "") : pyTruthy (some s) = true := by
  unfold pyTruthy
  dsimp only
  rw [beq_false_of_ne h]
  rfl

/-- The `decorated_function` pipeline once both headers are present: the
decision tree after the header check, stated as one equation. -/
theorem ash_protected_eq (eb : String) (store : Store) (now : Nat) (cid proof : String)
    (gj : Option PyVal) (hcid : cid ≠ "") (hproof : proof ≠ "") :
    ash_protected eb store now (some cid) (some proof) gj =
      match storeGet store cid with
      | none => (.errorResponse "ASH_INVALID_CONTEXT" 401, store)
      | some context =>
        if context.expires_at < now then
          (.errorResponse "ASH_CONTEXT_EXPIRED" 401, storeDel store cid)
        else if context.used then
          (.errorResponse "ASH_REPLAY_DETECTED" 401, store)
        else if context.binding ≠ eb then
          (.errorResponse "ASH_ENDPOINT_MISMATCH" 401, store)
        else
          match canonicalizeBody gj with
          | none => (.errorResponse "ASH_CANONICALIZATION_FAILED" 400, store)
          | some cp =>
            if !(timing_safe_equal
                (appBuildProof context.mode context.binding cid context.nonce cp) proof) then
              (.errorResponse "ASH_INTEGRITY_FAILED" 401, store)
            else
              (.handlerResponse, storeMarkUsed store cid) := by
  have hcond : (!(pyTruthy (some cid)) || !(pyTruthy (some proof))) = false := by
    rw [pyTruthy_some hcid, pyTruthy_some hproof]
    rfl
  unfold ash_protected
  rw [hcond]
  rfl

set_option maxRecDepth 200000 in
/-- C1 counterexample. The claim requires a verify at exactly
`t = expires_at` to fail with `CONTEXT_EXPIRED`; the code's expiry check is
the strict `time.time() * 1000 > expires_at`, so at `t = expires_at` an
otherwise valid request passes the check and verifies successfully. -/
theorem C1_expiry_at_boundary_counterexample :
    (ash_protected "POST /api/protected"
        [("ctx_1", ⟨"ctx_1", "POST /api/protected", "balanced", 1000, false, none⟩)]
        1000 (some "ctx_1")
        (some (appBuildProof "balanced" "POST /api/protected" "ctx_1" none "\x7b\x7d"))
        (some (.pydict []))).1 = .handlerResponse ∧
    AshResponse.handlerResponse ≠ .errorResponse "ASH_CONTEXT_EXPIRED" 401 :=
  ⟨rfl, by decide⟩

/-- C1 (amended). For every stored context and every verify attempt
presenting its id and a nonempty proof at a time `t` with `t > expires_at`
(strictly — the code checks `time.time() * 1000 > expires_at`), verification
fails with `CONTEXT_EXPIRED` regardless of all other inputs, and the context
is deleted from the store; at `t = expires_at` the expiry check does not
fire. -/
theorem C1_expired_rejected (eb : String) (store : Store) (now : Nat)
    (cid proof : String) (gj : Option PyVal) (ctx : StoredContext)
    (hcid : cid ≠ "") (hproof : proof ≠ "")
    (hget : storeGet store cid = some ctx) (hexp : ctx.expires_at < now) :
    ash_protected eb store now (some cid) (some proof) gj =
      (.errorResponse "ASH_CONTEXT_EXPIRED" 401, storeDel store cid) := by
  rw [ash_protected_eq eb store now cid proof gj hcid hproof, hget]
  dsimp only
  rw [if_pos hexp]

/-- Witness for the amended C1: a concrete expired context one millisecond
past its expiry. -/
theorem C1_expired_rejected_witness :
    ("ctx_1" : String) ≠ "" ∧ ("p" : String) ≠ "" ∧
    storeGet [("ctx_1", ⟨"ctx_1", "POST /api/protected", "balanced", 1000, false, none⟩)]
        "ctx_1" =
      some ⟨"ctx_1", "POST /api/protected", "balanced", 1000, false, none⟩ ∧
    (1000 : Nat) < 1001 ∧
    ash_protected "POST /api/protected"
        [("ctx_1", ⟨"ctx_1", "POST /api/protected", "balanced", 1000, false, none⟩)]
        1001 (some "ctx_1") (some "p") (some (.pydict [])) =
      (.errorResponse "ASH_CONTEXT_EXPIRED" 401,
        storeDel [("ctx_1", ⟨"ctx_1", "POST /api/protected", "balanced", 1000, false, none⟩)]
          "ctx_1") :=
  ⟨by decide, by decide, rfl, by decide,
    C1_expired_rejected _ _ _ _ _ _ _ (by decide) (by decide) rfl (by decide)⟩


/-- C3. For every verify attempt with both headers present, the checks run
in the fixed order — context lookup (`INVALID_CONTEXT`), expiry
(`CONTEXT_EXPIRED`), used flag (`REPLAY_DETECTED`), binding match
(`ENDPOINT_MISMATCH`), payload canonicalization (`CANONICALIZATION_FAILED`),
constant-time proof comparison (`INTEGRITY_FAILED`) — and only on full
success is the context marked used. Each conjunct fixes the outcome from
the first failing check alone, with every later-stage input universally
quantified, so no later stage influences the response; in particular an
expired context or a mismatched binding yields its error for every client
proof, without reaching the proof comparison. -/
theorem C3_pipeline_order (eb : String) (store : Store) (now : Nat) (cid proof : String)
    (gj : Option PyVal) (hcid : cid ≠ "") (hproof : proof ≠ "") :
    (storeGet store cid = none →
      ash_protected eb store now (some cid) (some proof) gj =
        (.errorResponse "ASH_INVALID_CONTEXT" 401, store)) ∧
    (∀ ctx, storeGet store cid = some ctx →
      (ctx.expires_at < now →
        ash_protected eb store now (some cid) (some proof) gj =
          (.errorResponse "ASH_CONTEXT_EXPIRED" 401, storeDel store cid)) ∧
      (¬ ctx.expires_at < now → ctx.used = true →
        ash_protected eb store now (some cid) (some proof) gj =
          (.errorResponse "ASH_REPLAY_DETECTED" 401, store)) ∧
      (¬ ctx.expires_at < now → ctx.used = false → ctx.binding ≠ eb →
        ash_protected eb store now (some cid) (some proof) gj =
          (.errorResponse "ASH_ENDPOINT_MISMATCH" 401, store)) ∧
      (¬ ctx.expires_at < now → ctx.used = false → ctx.binding = eb →
        canonicalizeBody gj = none →
        ash_protected eb store now (some cid) (some proof) gj =
          (.errorResponse "ASH_CANONICALIZATION_FAILED" 400, store)) ∧
      (∀ cp, ¬ ctx.expires_at < now → ctx.used = false → ctx.binding = eb →
        canonicalizeBody gj = some cp →
        timing_safe_equal (appBuildProof ctx.mode ctx.binding cid ctx.nonce cp) proof =
          false →
        ash_protected eb store now (some cid) (some proof) gj =
          (.errorResponse "ASH_INTEGRITY_FAILED" 401, store)) ∧
      (∀ cp, ¬ ctx.expires_at < now → ctx.used = false → ctx.binding = eb →
        canonicalizeBody gj = some cp →
        timing_safe_equal (appBuildProof ctx.mode ctx.binding cid ctx.nonce cp) proof =
          true →
        ash_protected eb store now (some cid) (some proof) gj =
          (.handlerResponse, storeMarkUsed store cid))) := by
  have he := ash_protected_eq eb store now cid proof gj hcid hproof
  constructor
  · intro hnone
    rw [he, hnone]
  · intro ctx hget
    rw [hget] at he
    dsimp only at he
    refine ⟨?_, ?_, ?_, ?_, ?_, ?_⟩
    · intro hexp
      rw [he, if_pos hexp]
    · intro hexp hused
      rw [he, if_neg hexp, if_pos hused]
    · intro hexp hused hbind
      rw [he, if_neg hexp, if_neg (by simp [hused]), if_pos hbind]
    · intro hexp hused hbind hcanon
      rw [he, if_neg hexp, if_neg (by simp [hused]), if_neg (by simp [hbind]), hcanon]
    · intro cp hexp hused hbind hcanon hteq
      rw [he, if_neg hexp, if_neg (by simp [hused]), if_neg (by simp [hbind]), hcanon]
      dsimp only
      rw [hteq]
      rfl
    · intro cp hexp hused hbind hcanon hteq
      rw [he, if_neg hexp, if_neg (by simp [hused]), if_neg (by simp [hbind]), hcanon]
      dsimp only
      rw [hteq]
      rfl

set_option maxRecDepth 400000 in
/-- Witness for C3: every branch of the pipeline exercised at a concrete
input — missing context, expired context, used context, wrong binding,
non-canonicalizable body (a non-finite float), wrong proof, and a full
success that marks the context used. -/
theorem C3_pipeline_order_witness :
    ash_protected "POST /api/protected" [] 500 (some "ctx_9") (some "x")
        (some (.pydict [])) =
      (.errorResponse "ASH_INVALID_CONTEXT" 401, []) ∧
    ash_protected "POST /api/protected"
        [("ctx_1", ⟨"ctx_1", "POST /api/protected", "balanced", 1000, false, none⟩)] 1001
        (some "ctx_1") (some "x") (some (.pydict [])) =
      (.errorResponse "ASH_CONTEXT_EXPIRED" 401,
        storeDel
          [("ctx_1", ⟨"ctx_1", "POST /api/protected", "balanced", 1000, false, none⟩)]
          "ctx_1") ∧
    ash_protected "POST /api/protected"
        [("ctx_1", ⟨"ctx_1", "POST /api/protected", "balanced", 1000, true, none⟩)] 500
        (some "ctx_1") (some "x") (some (.pydict [])) =
      (.errorResponse "ASH_REPLAY_DETECTED" 401,
        [("ctx_1", ⟨"ctx_1", "POST /api/protected", "balanced", 1000, true, none⟩)]) ∧
    ash_protected "POST /api/protected"
        [("ctx_1", ⟨"ctx_1", "POST /api/other", "balanced", 1000, false, none⟩)] 500
        (some "ctx_1") (some "x") (some (.pydict [])) =
      (.errorResponse "ASH_ENDPOINT_MISMATCH" 401,
        [("ctx_1", ⟨"ctx_1", "POST /api/other", "balanced", 1000, false, none⟩)]) ∧
    ash_protected "POST /api/protected"
        [("ctx_1", ⟨"ctx_1", "POST /api/protected", "balanced", 1000, false, none⟩)] 500
        (some "ctx_1") (some "x") (some .pynonfinite) =
      (.errorResponse "ASH_CANONICALIZATION_FAILED" 400,
        [("ctx_1", ⟨"ctx_1", "POST /api/protected", "balanced", 1000, false, none⟩)]) ∧
    ash_protected "POST /api/protected"
        [("ctx_1", ⟨"ctx_1", "POST /api/protected", "balanced", 1000, false, none⟩)] 500
        (some "ctx_1") (some "x") (some (.pydict [])) =
      (.errorResponse "ASH_INTEGRITY_FAILED" 401,
        [("ctx_1", ⟨"ctx_1", "POST /api/protected", "balanced", 1000, false, none⟩)]) ∧
    ash_protected "POST /api/protected"
        [("ctx_1", ⟨"ctx_1", "POST /api/protected", "balanced", 1000, false, none⟩)] 500
        (some "ctx_1")
        (some (appBuildProof "balanced" "POST /api/protected" "ctx_1" none "\x7b\x7d"))
        (some (.pydict [])) =
      (.handlerResponse,
        storeMarkUsed
          [("ctx_1", ⟨"ctx_1", "POST /api/protected", "balanced", 1000, false, none⟩)]
          "ctx_1") :=
  ⟨(C3_pipeline_order "POST /api/protected" [] 500 "ctx_9" "x" (some (.pydict []))
      (by decide) (by decide)).1 rfl,
    ((C3_pipeline_order "POST /api/protected"
        [("ctx_1", ⟨"ctx_1", "POST /api/protected", "balanced", 1000, false, none⟩)] 1001
        "ctx_1" "x" (some (.pydict [])) (by decide) (by decide)).2 _ rfl).1 (by decide),
    ((C3_pipeline_order "POST /api/protected"
        [("ctx_1", ⟨"ctx_1", "POST /api/protected", "balanced", 1000, true, none⟩)] 500
        "ctx_1" "x" (some (.pydict [])) (by decide) (by decide)).2 _ rfl).2.1
      (by decide) rfl,
    ((C3_pipeline_order "POST /api/protected"
        [("ctx_1", ⟨"ctx_1", "POST /api/other", "balanced", 1000, false, none⟩)] 500
        "ctx_1" "x" (some (.pydict [])) (by decide) (by decide)).2 _ rfl).2.2.1
      (by decide) rfl (by decide),
    ((C3_pipeline_order "POST /api/protected"
        [("ctx_1", ⟨"ctx_1", "POST /api/protected", "balanced", 1000, false, none⟩)] 500
        "ctx_1" "x" (some .pynonfinite) (by decide) (by decide)).2 _ rfl).2.2.2.1
      (by decide) rfl rfl rfl,
    ((C3_pipeline_order "POST /api/protected"
        [("ctx_1", ⟨"ctx_1", "POST /api/protected", "balanced", 1000, false, none⟩)] 500
        "ctx_1" "x" (some (.pydict [])) (by decide) (by decide)).2 _ rfl).2.2.2.2.1
      "\x7b\x7d" (by decide) rfl rfl rfl (by decide),
    ((C3_pipeline_order "POST /api/protected"
        [("ctx_1", ⟨"ctx_1", "POST /api/protected", "balanced", 1000, false, none⟩)] 500
        "ctx_1" (appBuildProof "balanced" "POST /api/protected" "ctx_1" none "\x7b\x7d")
        (some (.pydict [])) (by decide) (by decide)).2 _ rfl).2.2.2.2.2
      "\x7b\x7d" (by decide) rfl rfl rfl (by decide)⟩


theorem char_eq_of_toNat_eq {a b : Char} (h : a.toNat = b.toNat) : a = b :=
  Char.ext (UInt32.ext h)

theorem charsLe_total : ∀ as bs : List Char, charsLe as bs = true ∨ charsLe bs as = true := by
  intro as
  induction as with
  | nil => intro bs; left; rfl
  | cons a as' ih =>
    intro bs
    cases bs with
    | nil => right; rfl
    | cons b bs' =>
      by_cases h1 : a.toNat < b.toNat
      · left
        simp [charsLe, h1]
      · by_cases h2 : b.toNat < a.toNat
        · right
          simp [charsLe, h2]
        · rcases ih bs' with h | h
          · left
            simp [charsLe, h1, h2, h]
          · right
            simp [charsLe, h1, h2, h]

theorem charsLe_trans :
    ∀ as bs cs : List Char, charsLe as bs = true → charsLe bs cs = true →
      charsLe as cs = true := by
  intro as
  induction as with
  | nil => intro bs cs h1 h2; rfl
  | cons a as' ih =>
    intro bs cs h1 h2
    cases bs with
    | nil => simp [charsLe] at h1
    | cons b bs' =>
      cases cs with
      | nil => simp [charsLe] at h2
      | cons c cs' =>
        simp only [charsLe] at h1 h2 ⊢
        by_cases hab1 : a.toNat < b.toNat
        · by_cases hbc1 : b.toNat < c.toNat
          · simp [show a.toNat < c.toNat by omega]
          · by_cases hbc2 : c.toNat < b.toNat
            · simp [hbc1, hbc2] at h2
            · simp [show a.toNat < c.toNat by omega]
        · by_cases hab2 : b.toNat < a.toNat
          · simp [hab1, hab2] at h1
          · by_cases hbc1 : b.toNat < c.toNat
            · simp [show a.toNat < c.toNat by omega]
            · by_cases hbc2 : c.toNat < b.toNat
              · simp [hbc1, hbc2] at h2
              · have hac1 : ¬ a.toNat < c.toNat := by omega
                have hac2 : ¬ c.toNat < a.toNat := by omega
                simp [hab1, hab2] at h1
                simp [hbc1, hbc2] at h2
                simp [hac1, hac2]
                exact ih bs' cs' h1 h2

instance : IsTotal (String × String) pairKeyLe :=
  ⟨fun p q => charsLe_total p.1.data q.1.data⟩

instance : IsTrans (String × String) pairKeyLe :=
  ⟨fun _ _ _ h1 h2 => charsLe_trans _ _ _ h1 h2⟩

theorem charsLe_iff (as bs : List Char) :
    charsLe as bs = true ↔
      as = bs ∨ List.Lex (fun c d : Char => c.toNat < d.toNat) as bs := by
  induction as generalizing bs with
  | nil =>
    cases bs with
    | nil => simp [charsLe]
    | cons b bs' =>
      simp only [charsLe]
      constructor
      · intro _
        exact Or.inr List.Lex.nil
      · intro _
        trivial
  | cons a as' ih =>
    cases bs with
    | nil =>
      simp only [charsLe]
      constructor
      · intro h
        exact absurd h (by simp)
      · intro h
        rcases h with h | h
        · exact absurd h (by simp)
        · cases h
    | cons b bs' =>
      simp only [charsLe]
      by_cases h1 : a.toNat < b.toNat
      · simp only [h1, if_true, ite_true]
        constructor
        · intro _
          exact Or.inr (List.Lex.rel h1)
        · intro _
          trivial
      · by_cases h2 : b.toNat < a.toNat
        · simp only [h1, h2, if_true, ite_true, if_false, ite_false]
          constructor
          · intro h
            exact absurd h (by simp)
          · intro h
            rcases h with h | h
            · have : a = b := by
                injection h
              exact absurd (congrArg Char.toNat this) (by omega)
            · cases h with
              | rel hr => exact absurd hr h1
              | cons _ => omega
        · have hab : a = b := char_eq_of_toNat_eq (by omega)
          subst hab
          simp only [h1, h2, if_false, ite_false]
          rw [ih bs']
          constructor
          · intro h
            rcases h with h | h
            · exact Or.inl (by rw [h])
            · exact Or.inr (List.Lex.cons h)
          · intro h
            rcases h with h | h
            · exact Or.inl (by injection h)
            · cases h with
              | rel hr => exact absurd hr h1
              | cons ht => exact Or.inr ht


/-- C7. For every JSON object, canonicalization emits `{` + pairs joined by
`,` + `}`, each pair `<jsonString(key)>:<canonical(value)>`, with the pairs
arranged by keys in code-point lexicographic order (the emitted pair list is
a permutation of the object's pairs, pairwise sorted by the code-point order
on keys); and concretely both `{"b":1,"a":2}` and `{"a":2,"b":1}`
canonicalize to the exact bytes `{"a":2,"b":1}`, so the v1 proofs built over
the two inputs agree for every mode, binding, context id and nonce. -/
theorem C7_object_canonicalization (kvs : List (String × PyVal))
    (pairs : List (String × String)) (h : canonicalizePairs kvs = some pairs) :
    canonicalize_json (.pydict kvs) =
      some ("\x7b" ++ String.intercalate ","
        ((sortPairs pairs).map (fun p => pyJsonDumps p.1 ++ ":" ++ p.2)) ++ "\x7d") ∧
    List.Pairwise
      (fun p q : String × String =>
        p.1 = q.1 ∨ List.Lex (fun c d : Char => c.toNat < d.toNat) p.1.data q.1.data)
      (sortPairs pairs) ∧
    (sortPairs pairs).Perm pairs ∧
    canonicalize_json (.pydict [("b", .pyint 1), ("a", .pyint 2)]) =
      some "\x7b\"a\":2,\"b\":1\x7d" ∧
    canonicalize_json (.pydict [("a", .pyint 2), ("b", .pyint 1)]) =
      some "\x7b\"a\":2,\"b\":1\x7d" ∧
    ∀ m bi c n, build_proof ⟨m, bi, c, n,
        (canonicalize_json (.pydict [("b", .pyint 1), ("a", .pyint 2)])).getD ""⟩ =
      build_proof ⟨m, bi, c, n,
        (canonicalize_json (.pydict [("a", .pyint 2), ("b", .pyint 1)])).getD ""⟩ := by
  refine ⟨?_, ?_, ?_, rfl, rfl, ?_⟩
  · show (match canonicalizePairs kvs with
      | some ps =>
        some ("\x7b" ++ String.intercalate ","
          ((sortPairs ps).map (fun p : String × String => pyJsonDumps p.1 ++ ":" ++ p.2)) ++
          "\x7d")
      | none => none) = _
    rw [h]
  · have hs := List.sorted_insertionSort pairKeyLe pairs
    refine hs.imp ?_
    intro p q hpq
    rcases (charsLe_iff p.1.data q.1.data).mp hpq with heq | hlex
    · exact Or.inl (String.ext heq)
    · exact Or.inr hlex
  · exact List.perm_insertionSort pairKeyLe pairs
  · intro m bi c n
    rfl

/-- Witness for C7: the two-key object from the spec's key-ordering
scenario, whose pairs canonicalize successfully. -/
theorem C7_object_canonicalization_witness :
    canonicalizePairs [("b", .pyint 1), ("a", .pyint 2)] = some [("b", "1"), ("a", "2")] ∧
    canonicalize_json (.pydict [("b", .pyint 1), ("a", .pyint 2)]) =
      some ("\x7b" ++ String.intercalate ","
        ((sortPairs [("b", "1"), ("a", "2")]).map
          (fun p => pyJsonDumps p.1 ++ ":" ++ p.2)) ++ "\x7d") :=
  ⟨rfl, (C7_object_canonicalization [("b", .pyint 1), ("a", .pyint 2)]
      [("b", "1"), ("a", "2")] rfl).1⟩


theorem hexDigits_getD_ascii (n : Nat) : (hexDigits.getD n '0').toNat < 128 := by
  by_cases h : n < 16
  · revert h
    have : ∀ w, w < 16 → (hexDigits.getD w '0').toNat < 128 := by decide
    exact this n
  · have hlen : hexDigits.length ≤ n := by
      have : hexDigits.length = 16 := by decide
      omega
    rw [List.getD_eq_default _ _ hlen]
    decide

theorem hex4_ascii (n : Nat) : ∀ d ∈ hex4 n, d.toNat < 128 := by
  intro d hd
  unfold hex4 at hd
  simp only [List.mem_cons, List.not_mem_nil, or_false] at hd
  rcases hd with rfl | rfl | rfl | rfl <;> exact hexDigits_getD_ascii _

theorem uEscape_ascii (n : Nat) : ∀ d ∈ uEscape n, d.toNat < 128 := by
  intro d hd
  unfold uEscape at hd
  by_cases h : n < 0x10000
  · rw [if_pos h] at hd
    simp only [List.mem_cons] at hd
    rcases hd with rfl | rfl | hd
    · decide
    · decide
    · exact hex4_ascii _ d hd
  · rw [if_neg h] at hd
    rcases List.mem_append.mp hd with hd | hd <;>
      · simp only [List.mem_cons] at hd
        rcases hd with rfl | rfl | hd
        · decide
        · decide
        · exact hex4_ascii _ d hd

theorem escapeAsciiChar_ascii (c : Char) : ∀ d ∈ escapeAsciiChar c, d.toNat < 128 := by
  intro d hd
  unfold escapeAsciiChar at hd
  by_cases h1 : c = '"'
  · rw [if_pos h1] at hd
    simp only [List.mem_cons, List.not_mem_nil, or_false] at hd
    rcases hd with rfl | rfl <;> decide
  rw [if_neg h1] at hd
  by_cases h2 : c = '\\'
  · rw [if_pos h2] at hd
    simp only [List.mem_cons, List.not_mem_nil, or_false] at hd
    rcases hd with rfl | rfl <;> decide
  rw [if_neg h2] at hd
  by_cases h3 : c = '\n'
  · rw [if_pos h3] at hd
    simp only [List.mem_cons, List.not_mem_nil, or_false] at hd
    rcases hd with rfl | rfl <;> decide
  rw [if_neg h3] at hd
  by_cases h4 : c = '\r'
  · rw [if_pos h4] at hd
    simp only [List.mem_cons, List.not_mem_nil, or_false] at hd
    rcases hd with rfl | rfl <;> decide
  rw [if_neg h4] at hd
  by_cases h5 : c = '\t'
  · rw [if_pos h5] at hd
    simp only [List.mem_cons, List.not_mem_nil, or_false] at hd
    rcases hd with rfl | rfl <;> decide
  rw [if_neg h5] at hd
  by_cases h6 : c.toNat = 8
  · rw [if_pos h6] at hd
    simp only [List.mem_cons, List.not_mem_nil, or_false] at hd
    rcases hd with rfl | rfl <;> decide
  rw [if_neg h6] at hd
  by_cases h7 : c.toNat = 12
  · rw [if_pos h7] at hd
    simp only [List.mem_cons, List.not_mem_nil, or_false] at hd
    rcases hd with rfl | rfl <;> decide
  rw [if_neg h7] at hd
  by_cases h8 : c.toNat < 0x20 ∨ 0x7e < c.toNat
  · rw [if_pos h8] at hd
    exact uEscape_ascii _ d hd
  · rw [if_neg h8] at hd
    simp only [List.mem_cons, List.not_mem_nil, or_false] at hd
    subst hd
    omega

/-- C5 counterexample. The claim says non-ASCII characters are preserved as
UTF-8 in the output rather than escaped; the code calls `json.dumps` with
its default `ensure_ascii=True`, so `"é"` is emitted as the escape
`"\u00e9"`, not as the spec's literal `"é"`. -/
theorem C5_non_ascii_escaped_counterexample :
    canonicalize_json (.pystr "é") = some "\"\\u00e9\"" ∧
    specJsonStringLiteral "é" = "\"é\"" ∧
    canonicalize_json (.pystr "é") ≠ some (specJsonStringLiteral "é") := by
  refine ⟨by decide, by decide, by decide⟩

/-- C5 (amended). For every string value, the canonicalizer emits the JSON
string literal `json.dumps` produces with its default `ensure_ascii=True`:
a double-quoted literal with the standard short escapes, in which non-ASCII
characters are escaped as `\uXXXX` sequences (surrogate pairs beyond the
BMP) rather than preserved — every character of the output is ASCII. -/
theorem C5_string_canonicalization (s : String) :
    canonicalize_json (.pystr s) = some (pyJsonDumps s) ∧
    ((pyJsonDumps s).data.all (fun d => d.toNat < 128)) = true ∧
    (pyJsonDumps s).data.head? = some '"' ∧
    (pyJsonDumps s).data.getLast? = some '"' := by
  refine ⟨rfl, ?_, rfl, ?_⟩
  · rw [List.all_eq_true]
    intro d hd
    rw [decide_eq_true_eq]
    have hd2 : d ∈ ('"' :: (s.data.flatMap escapeAsciiChar ++ ['"'])) := hd
    rcases List.mem_cons.mp hd2 with rfl | hd3
    · decide
    rcases List.mem_append.mp hd3 with hd4 | hd4
    · rcases List.mem_flatMap.mp hd4 with ⟨c, hc, hdc⟩
      exact escapeAsciiChar_ascii c d hdc
    · simp only [List.mem_singleton] at hd4
      subst hd4
      decide
  · show ('"' :: (s.data.flatMap escapeAsciiChar ++ ['"'])).getLast? = some '"'
    rw [show ('"' :: (s.data.flatMap escapeAsciiChar ++ ['"'])) =
      ('"' :: s.data.flatMap escapeAsciiChar) ++ ['"'] by simp]
    exact List.getLast?_concat _


end Ash
